import Mathlib

/-!
Verification development for the stargazer-rs lease scheduler, collector
pipeline and admin CRUD surface.  The document store is modelled as a list of
task documents in insertion order; every store operation used by the scheduler
(`find_one_and_update`, `update_one`, `count_documents`, the group-by
aggregation) is embedded as an executable function on that list, translated
from `src/lib/scheduler/ops.rs`, `src/lib/collector/mod.rs` and
`src/lib/manager`.
-/

namespace Stargazer

/-- A task document of one kind collection, carrying the lease fields the
scheduler manipulates (`_id`, `uuid`, `parent_uuid`, `timestamp`) plus the
kind-specific `payload` and `cursor` which the scheduler treats as opaque.
Fields that a document may lack are `Option`. -/
structure TaskDoc where
  docId : Nat
  uuid : Option Nat
  parentUuid : Option Nat
  timestamp : Option Int
  payload : String
  cursor : String
deriving DecidableEq, Repr

/-- One task-kind collection of the shared store, in insertion order. -/
abbrev Store := List TaskDoc

/-- Mongo `find_one_and_update` with `ReturnDocument::After`: atomically pick
the first document satisfying the filter, apply the update, and return the
updated document; if nothing matches return `none` and leave the store
unchanged. -/
def findOneAndUpdate (pred : TaskDoc → Bool) (upd : TaskDoc → TaskDoc) :
    Store → Option TaskDoc × Store
  | [] => (Option.none, [])
  | d :: ds =>
    if pred d then (Option.some (upd d), upd d :: ds)
    else
      let r := findOneAndUpdate pred upd ds
      (r.1, d :: r.2)

/-- Result of mongo `update_one`: `matchedCount` counts documents matching the
filter, `modifiedCount` counts matched documents actually changed by the
update (mongo reports a matched-but-identical document as not modified). -/
structure UpdateOneResult where
  matchedCount : Nat
  modifiedCount : Nat
  store : Store
deriving DecidableEq, Repr

/-- Mongo `update_one`: apply the update to the first document matching the
filter. -/
def updateOne (pred : TaskDoc → Bool) (upd : TaskDoc → TaskDoc) : Store → UpdateOneResult
  | [] => ⟨0, 0, []⟩
  | d :: ds =>
    if pred d then ⟨1, if upd d = d then 0 else 1, upd d :: ds⟩
    else
      let r := updateOne pred upd ds
      ⟨r.matchedCount, r.modifiedCount, d :: r.store⟩

/-- `TaskInfo` from `scheduler/models.rs`: `(_id, uuid, parent_uuid)`. -/
structure TaskInfo where
  docId : Nat
  uuid : Nat
  parentUuid : Nat
deriving DecidableEq, Repr

/-- The acquire filter of `ScheduleOp::do_acquire` (`ops.rs:279`): the base
kind query conjoined with
`$or [timestamp < since_ts, timestamp missing]`. -/
def stalePred (kind : TaskDoc → Bool) (sinceTs : Int) (d : TaskDoc) : Bool :=
  kind d &&
    match d.timestamp with
    | Option.some t => decide (t < sinceTs)
    | Option.none => true

/-- The `$set` update built in `ScheduleOp::new` (`ops.rs:261`): fresh lease
`uuid`, the scheduler id as `parent_uuid`, `timestamp := now`. -/
def scheduleUpdate (nowTs : Int) (u pid : Nat) (d : TaskDoc) : TaskDoc :=
  { d with timestamp := Option.some nowTs, uuid := Option.some u,
           parentUuid := Option.some pid }

/-- `ScheduleOp::do_acquire` (`ops.rs:279`): one conditional
find-one-and-update keyed on the staleness filter, returning the document
after the update. -/
def doAcquire (kind : TaskDoc → Bool) (sinceTs nowTs : Int) (u pid : Nat)
    (s : Store) : Option TaskDoc × Store :=
  findOneAndUpdate (stalePred kind sinceTs) (scheduleUpdate nowTs u pid) s

theorem findOneAndUpdate_eq_none {pred : TaskDoc → Bool} {upd : TaskDoc → TaskDoc} :
    ∀ {s : Store}, (findOneAndUpdate pred upd s).1 = Option.none →
      (findOneAndUpdate pred upd s).2 = s ∧ ∀ d ∈ s, pred d = false := by
  intro s
  induction s with
  | nil => intro _; exact ⟨rfl, by simp⟩
  | cons d ds ih =>
    by_cases h : pred d
    · intro hcon
      simp [findOneAndUpdate, h] at hcon
    · intro hcon
      simp only [findOneAndUpdate, h, if_neg, Bool.false_eq_true, not_false_iff] at hcon ⊢
      obtain ⟨h1, h2⟩ := ih hcon
      refine ⟨by rw [h1], ?_⟩
      intro e he
      rcases List.mem_cons.mp he with rfl | he'
      · simpa using h
      · exact h2 e he'

theorem findOneAndUpdate_eq_some {pred : TaskDoc → Bool} {upd : TaskDoc → TaskDoc} :
    ∀ {s : Store} {d : TaskDoc}, (findOneAndUpdate pred upd s).1 = Option.some d →
      ∃ pre d₀ suf, s = pre ++ d₀ :: suf ∧ pred d₀ = true ∧
        (∀ e ∈ pre, pred e = false) ∧ d = upd d₀ ∧
        (findOneAndUpdate pred upd s).2 = pre ++ upd d₀ :: suf := by
  intro s
  induction s with
  | nil => intro d h; simp [findOneAndUpdate] at h
  | cons a ds ih =>
    intro d h
    by_cases ha : pred a
    · refine ⟨[], a, ds, by simp, ha, by simp, ?_, ?_⟩
      · simp [findOneAndUpdate, ha] at h
        exact h.symm
      · simp [findOneAndUpdate, ha]
    · simp only [findOneAndUpdate, ha, if_neg, Bool.false_eq_true, not_false_iff] at h ⊢
      obtain ⟨pre, d₀, suf, hs, hd₀, hpre, hd, hst⟩ := ih h
      refine ⟨a :: pre, d₀, suf, by rw [hs]; rfl, hd₀, ?_, hd, by rw [hst]; rfl⟩
      intro e he
      rcases List.mem_cons.mp he with rfl | he'
      · simpa using ha
      · exact hpre e he'

/-- Claim C2: `do_acquire` selects a document satisfying the kind filter and
the staleness disjunction (`timestamp < since OR timestamp missing`); when
one matches it atomically sets a fresh lease uuid, the caller id as
`parent_uuid` and `timestamp := now`, and returns the document as it stands
after the update; when nothing matches it returns none and leaves every
document unchanged. -/
theorem doAcquire_outdated_semantics (kind : TaskDoc → Bool) (sinceTs nowTs : Int)
    (u pid : Nat) (s : Store) :
    ((doAcquire kind sinceTs nowTs u pid s).1 = Option.none →
      (doAcquire kind sinceTs nowTs u pid s).2 = s ∧
      ∀ d ∈ s, stalePred kind sinceTs d = false) ∧
    (∀ d ∈ s, stalePred kind sinceTs d = true →
      (doAcquire kind sinceTs nowTs u pid s).1.isSome = true) ∧
    ∀ d, (doAcquire kind sinceTs nowTs u pid s).1 = Option.some d →
      d.uuid = Option.some u ∧ d.parentUuid = Option.some pid ∧
      d.timestamp = Option.some nowTs ∧
      ∃ pre d₀ suf,
        s = pre ++ d₀ :: suf ∧
        stalePred kind sinceTs d₀ = true ∧
        (∀ e ∈ pre, stalePred kind sinceTs e = false) ∧
        d = scheduleUpdate nowTs u pid d₀ ∧
        (doAcquire kind sinceTs nowTs u pid s).2 = pre ++ d :: suf := by
  refine ⟨fun h => findOneAndUpdate_eq_none h, ?_, ?_⟩
  · intro d hmem hstale
    cases hres : (doAcquire kind sinceTs nowTs u pid s).1 with
    | none =>
      have := (findOneAndUpdate_eq_none hres).2 d hmem
      rw [hstale] at this
      exact absurd this (by simp)
    | some d' => rfl
  · intro d h
    obtain ⟨pre, d₀, suf, hs, hd₀, hpre, hd, hst⟩ := findOneAndUpdate_eq_some h
    subst hd
    exact ⟨rfl, rfl, rfl, pre, d₀, suf, hs, hd₀, hpre, rfl, hst⟩

/-- A live document: timestamp 60 is not below the staleness bound 50. -/
def exLive : TaskDoc := ⟨3, Option.some 13, Option.some 9, Option.some 60, "", ""⟩

theorem scheduleUpdate_docId (nowTs : Int) (u pid : Nat) (d : TaskDoc) :
    (scheduleUpdate nowTs u pid d).docId = d.docId := rfl

/-- Claim C1: serialization of the race between two schedulers on the same
store.  Each acquisition is one atomic conditional find-one-and-update, so a
race is a serialization of the two operations; provided the first winner's
write time `now₁` is not before the second scheduler's staleness bound
`since₂`, and document ids are unique, the two acquisitions can never win the
same document — hence no two task runners are alive holding the same
`(doc_id, lease_uuid)` pair. -/
theorem acquire_mutual_exclusion
    (kind₁ kind₂ : TaskDoc → Bool) (since₁ now₁ since₂ now₂ : Int)
    (u₁ p₁ u₂ p₂ : Nat) (s : Store) (d₁ d₂ : TaskDoc)
    (hids : (s.map TaskDoc.docId).Nodup)
    (hwin : since₂ ≤ now₁)
    (h₁ : (doAcquire kind₁ since₁ now₁ u₁ p₁ s).1 = Option.some d₁)
    (h₂ : (doAcquire kind₂ since₂ now₂ u₂ p₂
            (doAcquire kind₁ since₁ now₁ u₁ p₁ s).2).1 = Option.some d₂) :
    d₁.docId ≠ d₂.docId := by
  obtain ⟨pre, d₀, suf, hs, hd₀, hpre, hd, hst⟩ := findOneAndUpdate_eq_some h₁
  obtain ⟨pre₂, e₀, suf₂, hs₂, he₀, hpre₂, he, hst₂⟩ := findOneAndUpdate_eq_some h₂
  -- the second op runs against the store left by the first
  simp only [doAcquire] at hs₂
  rw [hst] at hs₂
  -- doc ids of the updated store coincide with those of the original store
  have hmapeq : ((pre ++ scheduleUpdate now₁ u₁ p₁ d₀ :: suf).map TaskDoc.docId)
      = s.map TaskDoc.docId := by
    rw [hs]; simp [scheduleUpdate_docId]
  have hids' : ((pre ++ scheduleUpdate now₁ u₁ p₁ d₀ :: suf).map TaskDoc.docId).Nodup := by
    rw [hmapeq]; exact hids
  -- the winner of the second op is a member of the updated store
  have he₀mem : e₀ ∈ pre ++ scheduleUpdate now₁ u₁ p₁ d₀ :: suf := by
    rw [hs₂]; exact List.mem_append_right _ (List.mem_cons_self _ _)
  have hd₁mem : scheduleUpdate now₁ u₁ p₁ d₀ ∈ pre ++ scheduleUpdate now₁ u₁ p₁ d₀ :: suf :=
    List.mem_append_right _ (List.mem_cons_self _ _)
  intro heq
  -- unique ids force the two winners to be the same document occurrence
  have hinj := List.inj_on_of_nodup_map hids'
  have hsame : e₀ = scheduleUpdate now₁ u₁ p₁ d₀ := by
    apply hinj he₀mem hd₁mem
    rw [hd] at heq
    rw [he] at heq
    simpa [scheduleUpdate_docId] using heq.symm
  -- but the freshly renewed document cannot match the staleness filter again
  rw [hsame] at he₀
  have hlt : now₁ < since₂ := by
    have := by simpa [stalePred, scheduleUpdate] using he₀
    exact this.2
  omega

/-- A stale document (timestamp 0) with doc id 1. -/
def exStale1 : TaskDoc := ⟨1, Option.some 11, Option.some 5, Option.some 0, "", ""⟩

/-- A stale document (timestamp 0) with doc id 2. -/
def exStale2 : TaskDoc := ⟨2, Option.some 12, Option.some 5, Option.some 0, "", ""⟩

theorem acquire_mutual_exclusion_witness :
    (scheduleUpdate 100 21 1 exStale1).docId ≠ (scheduleUpdate 110 22 2 exStale2).docId :=
  acquire_mutual_exclusion (fun _ => true) (fun _ => true) 50 100 60 110 21 1 22 2
    [exStale1, exStale2] (scheduleUpdate 100 21 1 exStale1) (scheduleUpdate 110 22 2 exStale2)
    (by decide) (by decide) (by decide) (by decide)

theorem doAcquire_outdated_semantics_witness :
    (doAcquire (fun _ => true) 50 100 21 1 [exLive]).2 = [exLive] ∧
    ∀ d ∈ ([exLive] : Store), stalePred (fun _ => true) 50 d = false :=
  (doAcquire_outdated_semantics (fun _ => true) 50 100 21 1 [exLive]).1 (by decide)

/-- A `$set` patch body for `UpdateEntryOp`.  Runner patches carry only the
kind-opaque `payload` and `cursor` fields; `none` means the field is absent
from the patch and therefore untouched by the `$set`. -/
structure Patch where
  payload : Option String
  cursor : Option String
deriving DecidableEq, Repr

/-- The empty patch (`UpdateEntry::empty_payload`). -/
def emptyPatch : Patch := ⟨Option.none, Option.none⟩

/-- The `$set` document built by `UpdateEntryOp::execute_impl` (`ops.rs:69`):
the serialized patch fields plus `timestamp := now`. -/
def applySet (p : Patch) (now : Int) (d : TaskDoc) : TaskDoc :=
  { d with payload := p.payload.getD d.payload,
           cursor := p.cursor.getD d.cursor,
           timestamp := Option.some now }

/-- The CAS filter of `UpdateEntryOp` (`ops.rs:78`): both `_id` and the lease
`uuid` must match. -/
def entryFilter (info : TaskInfo) (d : TaskDoc) : Bool :=
  d.docId == info.docId && d.uuid == Option.some info.uuid

/-- `UpdateEntryOp::execute_impl` (`ops.rs:68`): `update_one` on the entry
filter, setting the patch fields plus the heartbeat timestamp. -/
def updateEntry (info : TaskInfo) (body : Option Patch) (now : Int) (s : Store) :
    UpdateOneResult :=
  updateOne (entryFilter info) (applySet (body.getD emptyPatch) now) s

/-- The boolean the op returns (`ops.rs:76`): `modified_count > 0`. -/
def updateEntryReturn (info : TaskInfo) (body : Option Patch) (now : Int) (s : Store) : Bool :=
  decide (0 < (updateEntry info body now s).modifiedCount)

theorem updateOne_store_map {α : Type} {pred : TaskDoc → Bool} {upd : TaskDoc → TaskDoc}
    (f : TaskDoc → α) (h : ∀ d, f (upd d) = f d) :
    ∀ s : Store, ((updateOne pred upd s).store).map f = s.map f := by
  intro s
  induction s with
  | nil => rfl
  | cons d ds ih =>
    by_cases hd : pred d
    · simp [updateOne, hd, h d]
    · simp [updateOne, hd, ih]

/-- The document used as C5's failing input: owned under lease 44, heartbeat
timestamp already equal to the current clock value 200. -/
def exOwned : TaskDoc := ⟨4, Option.some 44, Option.some 7, Option.some 200, "", ""⟩

/-- The task info of the runner holding `exOwned`. -/
def exInfo : TaskInfo := ⟨4, 44, 7⟩

/-- Claim C5: the heartbeat CAS matches on `(doc_id, lease_uuid)` and sets only
the patch fields plus `timestamp := now`; in particular lease fields are never
altered and an empty patch changes nothing but the timestamp.  The final
conjunct exhibits the return-value bug: on a document that matches the filter
but whose fields are unchanged by the `$set` (heartbeat in the same
millisecond), `modified_count` is 0 and the op reports `false` even though the
document matched — contradicting the message doc comment, which promises
`false` only when the resource was replaced or deleted. -/
theorem updateEntry_heartbeat_frame_and_return_bug :
    (∀ info body now (s : Store),
      ((updateEntry info body now s).store).map TaskDoc.uuid = s.map TaskDoc.uuid ∧
      ((updateEntry info body now s).store).map TaskDoc.parentUuid = s.map TaskDoc.parentUuid ∧
      ((updateEntry info body now s).store).map TaskDoc.docId = s.map TaskDoc.docId) ∧
    (∀ info now (s : Store),
      ((updateEntry info Option.none now s).store).map TaskDoc.cursor = s.map TaskDoc.cursor ∧
      ((updateEntry info Option.none now s).store).map TaskDoc.payload = s.map TaskDoc.payload) ∧
    ((updateEntry exInfo Option.none 200 [exOwned]).matchedCount = 1 ∧
      updateEntryReturn exInfo Option.none 200 [exOwned] = false) := by
  refine ⟨?_, ?_, by decide, by decide⟩
  · intro info body now s
    simp only [updateEntry]
    exact ⟨@updateOne_store_map _ (entryFilter info) (applySet (body.getD emptyPatch) now)
             TaskDoc.uuid (fun d => rfl) s,
           @updateOne_store_map _ (entryFilter info) (applySet (body.getD emptyPatch) now)
             TaskDoc.parentUuid (fun d => rfl) s,
           @updateOne_store_map _ (entryFilter info) (applySet (body.getD emptyPatch) now)
             TaskDoc.docId (fun d => rfl) s⟩
  · intro info now s
    simp only [updateEntry]
    exact ⟨@updateOne_store_map _ (entryFilter info)
             (applySet (Option.none.getD emptyPatch) now) TaskDoc.cursor (fun d => rfl) s,
           @updateOne_store_map _ (entryFilter info)
             (applySet (Option.none.getD emptyPatch) now) TaskDoc.payload (fun d => rfl) s⟩

/-- Phase of a task runner after handling one upstream item. -/
inductive RunnerPhase
  | streaming
  | stopping
deriving DecidableEq, Repr

/-- Outcome of one `ToCollector` message: the events forwarded to the
collector pipeline, the runner phase afterwards, and the store. -/
structure CollectStepResult where
  published : List Nat
  phase : RunnerPhase
  store : Store
deriving DecidableEq, Repr

/-- The `ToCollector` handler generated by `impl_to_collector_handler`
(`utils.rs:97`): for an interesting upstream item the runner synchronously
runs `UpdateEntry::empty_payload(info)` — the ownership CAS on
`(doc_id, lease_uuid)` — and forwards the item to the collector pipeline only
when that check returns true; otherwise it forwards nothing and stops
itself. -/
def toCollectorStep (info : TaskInfo) (now : Int) (s : Store) (event : Nat) :
    CollectStepResult :=
  if updateEntryReturn info Option.none now s then
    ⟨[event], RunnerPhase.streaming, (updateEntry info Option.none now s).store⟩
  else
    ⟨[], RunnerPhase.stopping, (updateEntry info Option.none now s).store⟩

/-- Claim C6: a runner publishes an event only after the synchronous ownership
check on its `(doc_id, lease_uuid)` returned true; when the check returns
false, nothing is published for that item and the runner transitions to
Stopping, so no event from the runner follows the failed check. -/
theorem no_publish_after_lease_loss (info : TaskInfo) (now : Int) (s : Store) (event : Nat) :
    ((toCollectorStep info now s event).published ≠ [] →
      updateEntryReturn info Option.none now s = true) ∧
    (updateEntryReturn info Option.none now s = false →
      (toCollectorStep info now s event).published = [] ∧
      (toCollectorStep info now s event).phase = RunnerPhase.stopping) := by
  constructor
  · intro h
    by_cases hb : updateEntryReturn info Option.none now s = true
    · exact hb
    · have hbf : updateEntryReturn info Option.none now s = false := by
        simpa using hb
      exact absurd (by simp [toCollectorStep, hbf]) h
  · intro hb
    simp [toCollectorStep, hb]

theorem no_publish_after_lease_loss_witness :
    (toCollectorStep exInfo 100 [] 7).published = [] ∧
    (toCollectorStep exInfo 100 [] 7).phase = RunnerPhase.stopping :=
  (no_publish_after_lease_loss exInfo 100 [] 7).2 (by decide)

/-- The scheduler-side inputs of a `ScheduleOp` (`ops.rs:241`): the kind base
query, the staleness bound and clock value sampled in `ScheduleOp::new`, the
freshly generated lease uuid, the scheduler id, and the local handle count
from `SchedulerMeta`. -/
structure SchedParams where
  kind : TaskDoc → Bool
  sinceTs : Int
  nowTs : Int
  uuid : Nat
  parentId : Nat
  selfCount : Nat

/-- The internal result enum of the schedule op (`ops.rs:100`). -/
inductive ScheduleResult
  | some (d : TaskDoc)
  | none
  | conflict
deriving DecidableEq, Repr

/-- Store operations a schedule invocation can issue, used to trace which
queries actually run. -/
inductive OpKind
  | acquire
  | countAll
  | workerInfo
  | tasksOnWorker
  | stealCas
deriving DecidableEq, Repr

/-- The `$gte` timestamp filter used by the worker-info and tasks-on-worker
queries; a missing timestamp does not satisfy `$gte`. -/
def tsGe (sinceTs : Int) (d : TaskDoc) : Bool :=
  match d.timestamp with
  | Option.some t => decide (sinceTs ≤ t)
  | Option.none => false

/-- One `(parent_uuid, count)` row of the group-by aggregation
(`WorkerInfo`, `ops.rs:110`). -/
structure WorkerInfo where
  id : Nat
  count : Nat
deriving DecidableEq, Repr

/-- `GetWorkerInfoOp` (`ops.rs:156`): match documents of the kind whose
`parent_uuid` differs from the calling scheduler and whose timestamp is at
least `since_ts`, and group them by `parent_uuid` with a count per worker.
Only documents carrying a parent id are grouped (a null group id would not
deserialize into `WorkerInfo`). -/
def getWorkerInfo (P : SchedParams) (s : Store) : List WorkerInfo :=
  ((s.filter (fun d =>
      (d.parentUuid != Option.some P.parentId) && tsGe P.sinceTs d && P.kind d)).filterMap
        TaskDoc.parentUuid).dedup.map
    (fun w =>
      ⟨w, ((s.filter (fun d =>
          (d.parentUuid != Option.some P.parentId) && tsGe P.sinceTs d && P.kind d)).filter
            (fun d => d.parentUuid == Option.some w)).length⟩)

/-- Deserialize a document into a `TaskInfo` (both lease fields present). -/
def taskInfoOf? (d : TaskDoc) : Option TaskInfo :=
  match d.uuid, d.parentUuid with
  | Option.some u, Option.some p => Option.some ⟨d.docId, u, p⟩
  | _, _ => Option.none

/-- `GetTasksOnWorkerOp` (`ops.rs:216`): the current tasks of one worker —
`parent_uuid = worker`, timestamp at least `since_ts`, kind filter. -/
def getTasksOnWorker (P : SchedParams) (w : Nat) (s : Store) : List TaskInfo :=
  (s.filter (fun d =>
    d.parentUuid == Option.some w && tsGe P.sinceTs d && P.kind d)).filterMap taskInfoOf?

/-- The steal CAS filter (`ops.rs:354`): the serialized victim `TaskInfo`,
i.e. `_id`, `uuid` and `parent_uuid` must all still match. -/
def stealFilter (t : TaskInfo) (d : TaskDoc) : Bool :=
  d.docId == t.docId && d.uuid == Option.some t.uuid &&
    d.parentUuid == Option.some t.parentUuid

/-- `GetAllTasksCount` (`ops.rs:133`): `count_documents` over the base kind
query alone — no timestamp filter. -/
def schedN (P : SchedParams) (s : Store) : Nat := (s.filter P.kind).length

/-- `expected` in `do_schedule_once` (`ops.rs:324`): total count divided by
the number of groups plus one. -/
def schedExpected (P : SchedParams) (s : Store) : Nat :=
  schedN P s / ((getWorkerInfo P s).length + 1)

/-- `threshold` in `do_schedule_once` (`ops.rs:325`). -/
def schedThreshold (P : SchedParams) (s : Store) : Nat :=
  if P.selfCount < schedExpected P s then schedExpected P s else schedExpected P s + 1

/-- The victim candidates (`ops.rs:333`): peers whose count exceeds the
threshold. -/
def schedVictims (P : SchedParams) (s : Store) : List WorkerInfo :=
  (getWorkerInfo P s).filter (fun w => decide (schedThreshold P s < w.count))

/-- `SliceRandom::choose`: none exactly when the slice is empty, otherwise
some element; the random draw is modelled by an index parameter. -/
def chooseIdx {α : Type} (l : List α) (i : Nat) : Option α := l[i % l.length]?

/-- The victim worker pick (`ops.rs:333`): only when the caller is at or
below `expected`. -/
def victimWorker (P : SchedParams) (cw : Nat) (s : Store) : Option WorkerInfo :=
  if P.selfCount ≤ schedExpected P s then chooseIdx (schedVictims P s) cw
  else Option.none

/-- `ScheduleOp::do_schedule_once` (`ops.rs:309`): count, group-by, victim
pick, then either a steal CAS (conflict when it matches nothing, also when
the victim's task list shrank to the threshold) or none when there is nothing
to steal. -/
def doScheduleOnce (P : SchedParams) (cw ct : Nat) (s : Store) :
    ScheduleResult × Store × List OpKind :=
  match victimWorker P cw s with
  | Option.some w =>
    if schedThreshold P s < (getTasksOnWorker P w.id s).length then
      match chooseIdx (getTasksOnWorker P w.id s) ct with
      | Option.some t =>
        match findOneAndUpdate (stealFilter t) (scheduleUpdate P.nowTs P.uuid P.parentId) s with
        | (Option.some d, s') =>
          (ScheduleResult.some d, s',
            [OpKind.countAll, OpKind.workerInfo, OpKind.tasksOnWorker, OpKind.stealCas])
        | (Option.none, s') =>
          (ScheduleResult.conflict, s',
            [OpKind.countAll, OpKind.workerInfo, OpKind.tasksOnWorker, OpKind.stealCas])
      | Option.none =>
        (ScheduleResult.conflict, s, [OpKind.countAll, OpKind.workerInfo, OpKind.tasksOnWorker])
    else
      (ScheduleResult.conflict, s, [OpKind.countAll, OpKind.workerInfo, OpKind.tasksOnWorker])
  | Option.none => (ScheduleResult.none, s, [OpKind.countAll, OpKind.workerInfo])

theorem chooseIdx_eq_none {α : Type} {l : List α} {i : Nat} :
    chooseIdx l i = Option.none ↔ l = [] := by
  cases l with
  | nil => simp [chooseIdx]
  | cons a t =>
    simp only [chooseIdx]
    constructor
    · intro h
      have hlt : i % (a :: t).length < (a :: t).length := Nat.mod_lt _ (by simp)
      rw [List.getElem?_eq_none_iff] at h
      omega
    · intro h
      exact absurd h (by simp)

theorem victimWorker_eq_none_iff (P : SchedParams) (cw : Nat) (s : Store) :
    victimWorker P cw s = Option.none ↔
      schedExpected P s < P.selfCount ∨ schedVictims P s = [] := by
  unfold victimWorker
  by_cases hle : P.selfCount ≤ schedExpected P s
  · rw [if_pos hle, chooseIdx_eq_none]
    constructor
    · exact Or.inr
    · rintro (h | h)
      · omega
      · exact h
  · rw [if_neg hle]
    constructor
    · intro _
      exact Or.inl (by omega)
    · intro _
      rfl

theorem doScheduleOnce_fst_eq_none_iff (P : SchedParams) (cw ct : Nat) (s : Store) :
    (doScheduleOnce P cw ct s).1 = ScheduleResult.none ↔
      victimWorker P cw s = Option.none := by
  unfold doScheduleOnce
  cases hv : victimWorker P cw s with
  | none => simp
  | some w =>
    by_cases ht : schedThreshold P s < (getTasksOnWorker P w.id s).length
    · simp only [if_pos ht]
      cases hc : chooseIdx (getTasksOnWorker P w.id s) ct with
      | none => simp
      | some t =>
        cases hr : findOneAndUpdate (stealFilter t)
            (scheduleUpdate P.nowTs P.uuid P.parentId) s with
        | mk r1 r2 =>
          cases r1 with
          | none => simp [hr]
          | some d => simp [hr]
    · simp [if_neg ht]

/-- Claim C3 (amended): in one steal round, with N the total count of
documents matching the kind filter (live or not — `GetAllTasksCount` applies
no timestamp filter), peers the group-by of other workers over live tasks and
W = peers + 1, the computed share is `expected = N / W`; the threshold is
`expected` when the caller's handle count is below `expected` and
`expected + 1` otherwise; victims are exactly the peers counting above the
threshold; and the round returns none exactly when the caller is above
`expected` or no victim exists. -/
theorem do_schedule_once_policy (P : SchedParams) (s : Store) (cw ct : Nat) :
    schedExpected P s = schedN P s / ((getWorkerInfo P s).length + 1) ∧
    schedThreshold P s =
      (if P.selfCount < schedExpected P s then schedExpected P s
       else schedExpected P s + 1) ∧
    (∀ w, w ∈ schedVictims P s ↔
      w ∈ getWorkerInfo P s ∧ schedThreshold P s < w.count) ∧
    ((doScheduleOnce P cw ct s).1 = ScheduleResult.none ↔
      schedExpected P s < P.selfCount ∨ schedVictims P s = []) := by
  refine ⟨rfl, rfl, ?_, ?_⟩
  · intro w
    simp [schedVictims, List.mem_filter]
  · rw [doScheduleOnce_fst_eq_none_iff, victimWorker_eq_none_iff]

/-- A live document on peer worker 9 with doc id i. -/
def c3Live (i : Nat) : TaskDoc :=
  ⟨i, Option.some (20 + i), Option.some 9, Option.some 60, "", ""⟩

/-- A stale document (heartbeat timestamp 0) on peer worker 9 with doc id i. -/
def c3Stale (i : Nat) : TaskDoc :=
  ⟨i, Option.some (20 + i), Option.some 9, Option.some 0, "", ""⟩

/-- C3's counterexample store: two live tasks on peer 9 and two stale ones. -/
def c3Store : Store := [c3Live 1, c3Live 2, c3Stale 3, c3Stale 4]

/-- C3's scheduler: id 1, staleness bound 50, no local handles. -/
def c3Params : SchedParams := ⟨fun _ => true, 50, 100, 88, 1, 0⟩

/-- Modelled from the claim's words (C3): N as the number of LIVE tasks —
documents of the kind whose heartbeat timestamp is within the window. -/
def claimLiveCount (P : SchedParams) (s : Store) : Nat :=
  (s.filter (fun d => P.kind d && tsGe P.sinceTs d)).length

/-- Modelled from the claim's words (C3): `expected = floor(N_live / W)`. -/
def claimExpected (P : SchedParams) (s : Store) : Nat :=
  claimLiveCount P s / ((getWorkerInfo P s).length + 1)

/-- Modelled from the claim's words (C3): the threshold over the live-count
share. -/
def claimThreshold (P : SchedParams) (s : Store) : Nat :=
  if P.selfCount < claimExpected P s then claimExpected P s else claimExpected P s + 1

/-- Claim C3 counterexample: on a store with two live and two stale tasks on
one peer, the claim's arithmetic (N = 2 live tasks, W = 2, expected = 1,
threshold = 1, victim present, self at or below expected) demands a steal
attempt, but the code computes its share from the total document count
(N = 4, expected = 2, threshold = 2, no victim) and the round returns
none. -/
theorem steal_policy_live_count_counterexample :
    claimLiveCount c3Params c3Store = 2 ∧
    claimExpected c3Params c3Store = 1 ∧
    c3Params.selfCount ≤ claimExpected c3Params c3Store ∧
    (getWorkerInfo c3Params c3Store).filter
      (fun w => decide (claimThreshold c3Params c3Store < w.count)) ≠ [] ∧
    schedN c3Params c3Store = 4 ∧
    schedExpected c3Params c3Store = 2 ∧
    (doScheduleOnce c3Params 0 0 c3Store).1 = ScheduleResult.none := by
  decide

theorem do_schedule_once_policy_witness :
    (doScheduleOnce c3Params 0 0 c3Store).1 = ScheduleResult.none :=
  (do_schedule_once_policy c3Params c3Store 0 0).2.2.2.mpr (by decide)

/-- The schedule mode enum (`ops.rs:90`). -/
inductive ScheduleMode
  | auto
  | outdatedOnly
  | stealOnly
deriving DecidableEq, Repr

/-- The steal loop of `ScheduleOp::execute_impl` (`ops.rs:389` and
`ops.rs:402`): repeat `do_schedule_once` while it reports a conflict.  Each
iteration consumes one pair of random draws; the list of draws bounds the
retries of this model. -/
def stealLoop (P : SchedParams) :
    List (Nat × Nat) → Store → Option TaskDoc × Store × List OpKind
  | [], s => (Option.none, s, [])
  | c :: rest, s =>
    match doScheduleOnce P c.1 c.2 s with
    | (ScheduleResult.some d, s', tr) => (Option.some d, s', tr)
    | (ScheduleResult.none, s', tr) => (Option.none, s', tr)
    | (ScheduleResult.conflict, s', tr) =>
      let r := stealLoop P rest s'
      (r.1, r.2.1, tr ++ r.2.2)

/-- `ScheduleOp::execute_impl` (`ops.rs:383`): `Auto` acquires an outdated
entry first and falls back to the steal loop, `OutdatedOnly` only runs the
acquire query, `StealOnly` only runs the steal loop. -/
def executeSchedule (mode : ScheduleMode) (P : SchedParams) (choices : List (Nat × Nat))
    (s : Store) : Option TaskDoc × Store × List OpKind :=
  match mode with
  | ScheduleMode.auto =>
    match doAcquire P.kind P.sinceTs P.nowTs P.uuid P.parentId s with
    | (Option.some d, s') => (Option.some d, s', [OpKind.acquire])
    | (Option.none, s') =>
      let r := stealLoop P choices s'
      (r.1, r.2.1, OpKind.acquire :: r.2.2)
  | ScheduleMode.outdatedOnly =>
    let a := doAcquire P.kind P.sinceTs P.nowTs P.uuid P.parentId s
    (a.1, a.2, [OpKind.acquire])
  | ScheduleMode.stealOnly => stealLoop P choices s

/-- The mode with which `Handler<TrySchedule>` (`actor.rs:91`) constructs its
`ScheduleOp`: `ScheduleMode::Auto` (`actor.rs:103`), regardless of the mode
carried by the `TrySchedule` message, which the handler receives as `_msg`
and never reads. -/
def tryScheduleOpMode (_msgMode : ScheduleMode) : ScheduleMode := ScheduleMode.auto

/-- The `TrySchedule` handler as it executes against the store. -/
def handleTrySchedule (msgMode : ScheduleMode) (P : SchedParams)
    (choices : List (Nat × Nat)) (s : Store) : Option TaskDoc × Store × List OpKind :=
  executeSchedule (tryScheduleOpMode msgMode) P choices s

/-- A live document on peer worker 9 used as C4's failing store. -/
def c4Doc (i : Nat) : TaskDoc :=
  ⟨i, Option.some (10 + i), Option.some 9, Option.some 60, "", ""⟩

/-- C4's failing store: four live documents on peer 9, none orphaned. -/
def c4Store : Store := [c4Doc 1, c4Doc 2, c4Doc 3, c4Doc 4]

/-- C4's scheduler: id 1, staleness bound 50, no local handles. -/
def c4Params : SchedParams := ⟨fun _ => true, 50, 100, 77, 1, 0⟩

/-- Claim C4 (code bug): the handler builds its op with mode Auto, ignoring
the OutdatedOnly mode the driver's fast tick sends; on a store with no
orphaned document and an overloaded peer the invocation therefore runs the
count, group-by and steal CAS and acquires a stolen document — whereas a
`ScheduleOp` that were given OutdatedOnly (last two conjuncts) would return
none after the single acquire query, as the claim requires. -/
theorem tryschedule_mode_ignored_bug :
    tryScheduleOpMode ScheduleMode.outdatedOnly = ScheduleMode.auto ∧
    (handleTrySchedule ScheduleMode.outdatedOnly c4Params [(0, 0)] c4Store).1.isSome = true ∧
    OpKind.countAll ∈ (handleTrySchedule ScheduleMode.outdatedOnly c4Params [(0, 0)] c4Store).2.2 ∧
    OpKind.stealCas ∈ (handleTrySchedule ScheduleMode.outdatedOnly c4Params [(0, 0)] c4Store).2.2 ∧
    (executeSchedule ScheduleMode.outdatedOnly c4Params [(0, 0)] c4Store).1 = Option.none ∧
    (executeSchedule ScheduleMode.outdatedOnly c4Params [(0, 0)] c4Store).2.2 = [OpKind.acquire] := by
  exact ⟨rfl, by decide, by decide, by decide, by decide, by decide⟩

/-- An opaque `PublishExpanded` event held in a destination queue. -/
abbrev Event := Nat

/-- The connection state of one collector destination
(`collector/mod.rs:142`): `Available(recipient)`, `DelayedEstablish(deadline)`
(the backoff state) or `Uninit`. -/
inductive DestState
  | uninit
  | available (handle : Nat)
  | delayedEstablish (deadline : Nat)
deriving DecidableEq, Repr

/-- The ring capacity of a destination queue
(`ArrayDeque<[PublishExpanded; 1024], Wrapping>`, `collector/mod.rs:158`). -/
def ringCap : Nat := 1024

/-- `ArrayDeque::push_back` with wrapping behavior: on a full ring the
element at the front — the oldest — is overwritten. -/
def pushBackWrapping (q : List Event) (e : Event) : List Event :=
  if q.length < ringCap then q ++ [e] else q.drop 1 ++ [e]

/-- The per-destination context (`collector/mod.rs:155`): connection state
plus the bounded event queue. -/
structure DestCtx where
  state : DestState
  queue : List Event
deriving DecidableEq, Repr

/-- The fixed retry delay of 10 seconds (`collector/mod.rs:266`). -/
def retryDelay : Nat := 10

/-- Effect of one `Wake` on a destination: the context afterwards, the events
handed to the destination handle, and the follow-up wake (`some 0` for an
immediate `notify`, `some d` for `notify_later` after `d`, `none` for no
wake). -/
structure WakeStep where
  ctx : DestCtx
  delivered : List Event
  wake : Option Nat
deriving DecidableEq, Repr

/-- The `EstablishConnection` branch of the wake handler
(`collector/mod.rs:283`): build a handle from the factory; on success become
Available and wake again if the queue is non-empty, on failure back off for
`retryDelay` and schedule a delayed wake. -/
def establish (c : DestCtx) (now : Nat) (buildRes : Option Nat) : WakeStep :=
  match buildRes with
  | Option.some h =>
    ⟨⟨DestState.available h, c.queue⟩, [],
      if c.queue.isEmpty then Option.none else Option.some 0⟩
  | Option.none =>
    ⟨⟨DestState.delayedEstablish (now + retryDelay), c.queue⟩, [],
      Option.some retryDelay⟩

/-- `Handler<Wake>` (`collector/mod.rs:212`): dispatch on the destination
state.  Available: pop the front event and send it; on success wake again
when events remain, on failure back off for `retryDelay`, push the event
back to the front and schedule a delayed wake.  Backoff past its deadline or
Uninit: establish a connection.  Backoff before its deadline: re-schedule
the wake for the remaining time.  The environment's behavior is the send
result `sendOk` and the factory result `buildRes`. -/
def handleWake (c : DestCtx) (now : Nat) (sendOk : Bool) (buildRes : Option Nat) : WakeStep :=
  match c.state with
  | DestState.available h =>
    match c.queue with
    | [] => ⟨c, [], Option.none⟩
    | e :: rest =>
      if sendOk then
        ⟨⟨DestState.available h, rest⟩, [e],
          if rest.isEmpty then Option.none else Option.some 0⟩
      else
        ⟨⟨DestState.delayedEstablish (now + retryDelay), e :: rest⟩, [],
          Option.some retryDelay⟩
  | DestState.delayedEstablish dl =>
    if dl ≤ now then establish c now buildRes
    else ⟨c, [], Option.some (dl - now)⟩
  | DestState.uninit => establish c now buildRes

/-- One wake's environment: the clock and the outcomes the outside world
gives to the send and the connection build. -/
structure WakeEnv where
  now : Nat
  sendOk : Bool
  buildRes : Option Nat
deriving DecidableEq, Repr

/-- A run of consecutive wakes on one destination (no publishes in
between), accumulating the delivered events. -/
def runWakes (c : DestCtx) : List WakeEnv → List Event × DestCtx
  | [] => ([], c)
  | env :: rest =>
    let st := handleWake c env.now env.sendOk env.buildRes
    let r := runWakes st.ctx rest
    (st.delivered ++ r.1, r.2)

theorem establish_queue_shape (c : DestCtx) (now : Nat) (br : Option Nat) :
    (establish c now br).delivered = [] ∧ (establish c now br).ctx.queue = c.queue := by
  cases br <;> exact ⟨rfl, rfl⟩

theorem handleWake_queue_shape (c : DestCtx) (now : Nat) (so : Bool) (br : Option Nat) :
    ∃ k, (handleWake c now so br).delivered = c.queue.take k ∧
         (handleWake c now so br).ctx.queue = c.queue.drop k := by
  cases c with
  | mk st q =>
    cases st with
    | uninit =>
      obtain ⟨h1, h2⟩ := establish_queue_shape ⟨DestState.uninit, q⟩ now br
      exact ⟨0, by simpa [handleWake] using h1, by simpa [handleWake] using h2⟩
    | delayedEstablish dl =>
      by_cases hdl : dl ≤ now
      · obtain ⟨h1, h2⟩ := establish_queue_shape ⟨DestState.delayedEstablish dl, q⟩ now br
        exact ⟨0, by simpa [handleWake, hdl] using h1, by simpa [handleWake, hdl] using h2⟩
      · exact ⟨0, by simp [handleWake, hdl], by simp [handleWake, hdl]⟩
    | available h =>
      cases q with
      | nil => exact ⟨0, by simp [handleWake], by simp [handleWake]⟩
      | cons e rest =>
        cases so with
        | true => exact ⟨1, by simp [handleWake], by simp [handleWake]⟩
        | false => exact ⟨0, by simp [handleWake], by simp [handleWake]⟩

theorem runWakes_delivered_take (envs : List WakeEnv) :
    ∀ c : DestCtx, ∃ k, (runWakes c envs).1 = c.queue.take k ∧
      (runWakes c envs).2.queue = c.queue.drop k := by
  induction envs with
  | nil => intro c; exact ⟨0, by simp [runWakes], by simp [runWakes]⟩
  | cons env rest ih =>
    intro c
    obtain ⟨j, hdel, hq⟩ := handleWake_queue_shape c env.now env.sendOk env.buildRes
    obtain ⟨k, hdel2, hq2⟩ := ih (handleWake c env.now env.sendOk env.buildRes).ctx
    refine ⟨j + k, ?_, ?_⟩
    · show (handleWake c env.now env.sendOk env.buildRes).delivered ++
        (runWakes (handleWake c env.now env.sendOk env.buildRes).ctx rest).1 = _
      rw [hdel, hdel2, hq, List.take_add]
    · show (runWakes (handleWake c env.now env.sendOk env.buildRes).ctx rest).2.queue = _
      rw [hq2, hq, List.drop_drop, Nat.add_comm]

/-- Claim C7: in state Available a wake pops the front event and sends it; on
failure the destination backs off to deadline `now + 10`, the failed event
returns to the front of the queue (so it is the next one attempted) and a
wake is scheduled after the 10-second delay; on success the tail remains and
another wake is scheduled exactly when events remain; consequently any run
of wakes delivers a prefix of the queue in queue order. -/
theorem destination_failure_handling (h now : Nat) (br : Option Nat) (e : Event)
    (rest : List Event) :
    handleWake ⟨DestState.available h, e :: rest⟩ now false br =
      ⟨⟨DestState.delayedEstablish (now + retryDelay), e :: rest⟩, [],
        Option.some retryDelay⟩ ∧
    handleWake ⟨DestState.available h, e :: rest⟩ now true br =
      ⟨⟨DestState.available h, rest⟩, [e],
        if rest.isEmpty then Option.none else Option.some 0⟩ ∧
    retryDelay = 10 ∧
    ∀ (c : DestCtx) (envs : List WakeEnv),
      ∃ k, (runWakes c envs).1 = c.queue.take k ∧
        (runWakes c envs).2.queue = c.queue.drop k := by
  refine ⟨rfl, rfl, rfl, ?_⟩
  intro c envs
  exact runWakes_delivered_take envs c

/-- The wake condition checked by the `Publish` handler before pushing
(`collector/mod.rs:195`): the destination is Available with an empty queue,
or still Uninit. -/
def publishWakeCond (c : DestCtx) : Bool :=
  ((match c.state with
    | DestState.available _ => true
    | _ => false) && c.queue.isEmpty) ||
  (match c.state with
   | DestState.uninit => true
   | _ => false)

/-- Outcome of a `Publish`: the destination map afterwards and the factories
for which a `Wake` was notified. -/
structure PublishOutcome where
  collectors : List (Nat × DestCtx)
  wakes : List Nat
deriving DecidableEq, Repr

/-- `Handler<Publish>` (`collector/mod.rs:184`): `Publish::expand` resolves
the root reference to the owning catalog entity.  `expandRes` collapses the
`DBResult<Option<_>>`: `some (some name)` for a resolved entity,
`some none` for a lookup that found nothing, `none` for a store error.  Only
on `Ok(Some(_))` does the handler fan out — scheduling a `Wake` for every
destination satisfying the wake condition and pushing the event onto every
queue; otherwise it only logs a warning, and either way the handler's own
result is `()`. -/
def handlePublish (cs : List (Nat × DestCtx)) (expandRes : Option (Option String))
    (e : Event) : PublishOutcome :=
  match expandRes with
  | Option.some (Option.some _name) =>
    ⟨cs.map (fun p => (p.1, ⟨p.2.state, pushBackWrapping p.2.queue e⟩)),
     (cs.filter (fun p => publishWakeCond p.2)).map Prod.fst⟩
  | _ => ⟨cs, []⟩

/-- Claim C8: every queue operation of the collector — the publish enqueue,
the wake pop, the failure push-front — keeps each destination queue within
the ring capacity 1024, and an enqueue onto a full ring overwrites the
oldest event instead of blocking or rejecting the new one. -/
theorem destination_queue_bound (q : List Event) (e : Event) (c : DestCtx)
    (now : Nat) (so : Bool) (br : Option Nat) (cs : List (Nat × DestCtx))
    (r : Option (Option String)) (ev : Event)
    (hq : q.length ≤ ringCap) (hc : c.queue.length ≤ ringCap)
    (hcs : ∀ p ∈ cs, (Prod.snd p).queue.length ≤ ringCap) :
    (pushBackWrapping q e).length ≤ ringCap ∧
    (q.length = ringCap → pushBackWrapping q e = q.drop 1 ++ [e]) ∧
    (handleWake c now so br).ctx.queue.length ≤ ringCap ∧
    ringCap = 1024 ∧
    ∀ p ∈ (handlePublish cs r ev).collectors, (Prod.snd p).queue.length ≤ ringCap := by
  have hcap : ringCap = 1024 := rfl
  have hpush : ∀ (ev' : Event) (q' : List Event), q'.length ≤ ringCap →
      (pushBackWrapping q' ev').length ≤ ringCap := by
    intro ev' q' hq'
    unfold pushBackWrapping
    by_cases hlt : q'.length < ringCap
    · rw [if_pos hlt]
      simp
      omega
    · rw [if_neg hlt]
      have hlen : (q'.drop 1 ++ [ev']).length = q'.length - 1 + 1 := by
        simp [List.length_drop]
      rw [hlen]
      omega
  refine ⟨hpush e q hq, ?_, ?_, rfl, ?_⟩
  · intro hfull
    unfold pushBackWrapping
    rw [if_neg (by omega)]
  · obtain ⟨k, _, hk⟩ := handleWake_queue_shape c now so br
    rw [hk]
    calc (c.queue.drop k).length ≤ c.queue.length := by
          rw [List.length_drop]; omega
      _ ≤ ringCap := hc
  · intro p hp
    unfold handlePublish at hp
    match r with
    | Option.some (Option.some name) =>
      simp only [List.mem_map] at hp
      obtain ⟨p₀, hp₀, rfl⟩ := hp
      exact hpush ev p₀.2.queue (hcs p₀ hp₀)
    | Option.some Option.none =>
      exact hcs p hp
    | Option.none =>
      exact hcs p hp

theorem destination_queue_bound_witness :
    (pushBackWrapping [] 5).length ≤ ringCap ∧
    (([] : List Event).length = ringCap → pushBackWrapping [] 5 = [].drop 1 ++ [5]) ∧
    (handleWake ⟨DestState.uninit, []⟩ 0 true Option.none).ctx.queue.length ≤ ringCap ∧
    ringCap = 1024 ∧
    ∀ p ∈ (handlePublish [] Option.none 5).collectors,
      (Prod.snd p).queue.length ≤ ringCap :=
  destination_queue_bound [] 5 ⟨DestState.uninit, []⟩ 0 true Option.none []
    Option.none 5 (by decide) (by decide) (by simp)

/-- Claim C10: when the root reference of a publish does not resolve — the
lookup errors or returns none — the event is dropped: every destination's
state and queue is unchanged and no wake is scheduled, while the handler
itself still completes (its result type is `()`). -/
theorem publish_unresolved_root_dropped (cs : List (Nat × DestCtx))
    (r : Option (Option String)) (e : Event)
    (h : r = Option.none ∨ r = Option.some Option.none) :
    (handlePublish cs r e).collectors = cs ∧ (handlePublish cs r e).wakes = [] := by
  rcases h with rfl | rfl <;> exact ⟨rfl, rfl⟩

theorem publish_unresolved_root_dropped_witness :
    (handlePublish [(0, ⟨DestState.uninit, [3]⟩)] Option.none 5).collectors =
      [(0, ⟨DestState.uninit, [3]⟩)] ∧
    (handlePublish [(0, ⟨DestState.uninit, [3]⟩)] Option.none 5).wakes = [] :=
  publish_unresolved_root_dropped [(0, ⟨DestState.uninit, [3]⟩)] Option.none 5 (Or.inl rfl)

/-- A vtuber catalog document (`manager/models.rs:14`): the name plus the
untyped fields map from field key to the id of the referenced kind
document. -/
structure VtuberDoc where
  name : String
  fields : List (String × Nat)
deriving DecidableEq, Repr

/-- A kind field document referenced from a vtuber's fields map; its value
is the entry rendered to its display string. -/
structure FieldDoc where
  id : Nat
  value : String
deriving DecidableEq, Repr

/-- The catalog side of the store: the vtuber collection plus the kind field
documents reachable through DBRefs. -/
structure CatalogStore where
  vtubers : List VtuberDoc
  fieldDocs : List FieldDoc
deriving DecidableEq, Repr

/-- `CrudError` (`manager/errors.rs:8`). -/
inductive CrudError
  | dbError
  | missingVtuber
  | missingField
  | invalidValue
  | inconsistency
deriving DecidableEq, Repr

/-- `ResponseError::status_code` for `CrudError` (`manager/errors.rs:25`). -/
def statusCode : CrudError → Nat
  | CrudError.missingVtuber => 404
  | CrudError.missingField => 404
  | CrudError.dbError => 500
  | CrudError.inconsistency => 500
  | CrudError.invalidValue => 400

/-- `GetVtuberOp` (`manager/ops.rs:15`): `find_one` on the name. -/
def getVtuber (st : CatalogStore) (name : String) : Option VtuberDoc :=
  st.vtubers.find? (fun v => v.name == name)

/-- `DBRef::get` (`db.rs:63`): `find_one` on the referenced id. -/
def dbRefGet (st : CatalogStore) (rid : Nat) : Option String :=
  (st.fieldDocs.find? (fun d => d.id == rid)).map FieldDoc.value

/-- Look a field key up in a vtuber's fields map. -/
def lookupField (v : VtuberDoc) (key : String) : Option Nat :=
  (v.fields.find? (fun p => p.1 == key)).map Prod.snd

/-- The per-field GET endpoint (`manager/field.rs:19`): missing vtuber or
missing field raise the corresponding `CrudError`; a reference whose target
document is absent raises `Inconsistency`; otherwise the entry's display
string is returned. -/
def fieldGet (st : CatalogStore) (name key : String) : Except CrudError String :=
  match getVtuber st name with
  | Option.none => Except.error CrudError.missingVtuber
  | Option.some v =>
    match lookupField v key with
    | Option.none => Except.error CrudError.missingField
    | Option.some rid =>
      match dbRefGet st rid with
      | Option.none => Except.error CrudError.inconsistency
      | Option.some val => Except.ok val

/-- `DBRef::set` / `find_one_and_replace` (`db.rs:83`): replace the
referenced document, returning the previous one when it exists. -/
def dbRefSet (st : CatalogStore) (rid : Nat) (val : String) :
    Option String × CatalogStore :=
  match st.fieldDocs.find? (fun d => d.id == rid) with
  | Option.some old =>
    (Option.some old.value,
     { st with fieldDocs :=
        st.fieldDocs.map (fun d => if d.id == rid then ⟨d.id, val⟩ else d) })
  | Option.none => (Option.none, st)

/-- `CreateFieldOp` followed by `LinkRefOp` (`manager/field.rs:67`): insert a
fresh field document and link its reference into the vtuber's fields map. -/
def createAndLinkField (st : CatalogStore) (name key val : String)
    (freshId : Nat) : CatalogStore :=
  { vtubers := st.vtubers.map
      (fun v => if v.name == name then ⟨v.name, v.fields ++ [(key, freshId)]⟩ else v),
    fieldDocs := st.fieldDocs ++ [⟨freshId, val⟩] }

/-- The per-field PUT endpoint (`manager/field.rs:40`): parse the payload
first (`from_str_e`, failure → `InvalidValue`); then replace the referenced
document when the field exists (an absent target → `Inconsistency`), or
create and link a fresh one; success responds 204 NoContent. -/
def fieldPut (parse : String → Option String) (st : CatalogStore)
    (name key payload : String) (freshId : Nat) :
    Except CrudError (Nat × CatalogStore) :=
  match parse payload with
  | Option.none => Except.error CrudError.invalidValue
  | Option.some val =>
    match getVtuber st name with
    | Option.none => Except.error CrudError.missingVtuber
    | Option.some v =>
      match lookupField v key with
      | Option.some rid =>
        match dbRefSet st rid val with
        | (Option.some _, st') => Except.ok (204, st')
        | (Option.none, _) => Except.error CrudError.inconsistency
      | Option.none => Except.ok (204, createAndLinkField st name key val freshId)

/-- `CreateVtuberOp` (`manager/ops.rs:37`): `insert_one` under the unique
natural-key index; a duplicate-key write error (code 11000) is reported as
`Ok(false)`. -/
def createVtuber (st : CatalogStore) (name : String) : Bool × CatalogStore :=
  if st.vtubers.any (fun v => v.name == name) then (false, st)
  else (true, { st with vtubers := st.vtubers ++ [⟨name, []⟩] })

/-- `entry::create` (`manager/entry.rs:78`): 204 NoContent on insertion,
409 Conflict on duplicate. -/
def entryCreate (st : CatalogStore) (name : String) : Nat × CatalogStore :=
  match createVtuber st name with
  | (true, st') => (204, st')
  | (false, st') => (409, st')

/-- HTTP status of a field GET result (actix renders `Ok` as 200 and an
error through `ResponseError::status_code`). -/
def statusOfGet (r : Except CrudError String) : Nat :=
  match r with
  | Except.error e => statusCode e
  | Except.ok _ => 200

/-- HTTP status of a field PUT result. -/
def statusOfPut (r : Except CrudError (Nat × CatalogStore)) : Nat :=
  match r with
  | Except.error e => statusCode e
  | Except.ok p => p.1

/-- Claim C9: GET of a missing entity or missing field responds 404; a PUT
whose payload fails to parse responds 400; creating a fresh entity responds
204 and creating it again responds 409; a dangling reference responds
500. -/
theorem admin_http_status_mapping (st : CatalogStore) (name key payload : String)
    (parse : String → Option String) (freshId : Nat) :
    (getVtuber st name = Option.none → statusOfGet (fieldGet st name key) = 404) ∧
    (∀ v, getVtuber st name = Option.some v → lookupField v key = Option.none →
      statusOfGet (fieldGet st name key) = 404) ∧
    (∀ v rid, getVtuber st name = Option.some v → lookupField v key = Option.some rid →
      dbRefGet st rid = Option.none → statusOfGet (fieldGet st name key) = 500) ∧
    (parse payload = Option.none →
      statusOfPut (fieldPut parse st name key payload freshId) = 400) ∧
    (getVtuber st name = Option.none →
      (entryCreate st name).1 = 204 ∧
      (entryCreate (entryCreate st name).2 name).1 = 409) := by
  refine ⟨?_, ?_, ?_, ?_, ?_⟩
  · intro h
    simp [fieldGet, h, statusOfGet, statusCode]
  · intro v hv hf
    simp [fieldGet, hv, hf, statusOfGet, statusCode]
  · intro v rid hv hf hd
    simp [fieldGet, hv, hf, hd, statusOfGet, statusCode]
  · intro hp
    simp [fieldPut, hp, statusOfPut, statusCode]
  · intro h
    unfold getVtuber at h
    have hall := List.find?_eq_none.mp h
    have hany : st.vtubers.any (fun v => v.name == name) = false := by
      rw [List.any_eq_false]
      intro v hv
      exact hall v hv
    constructor
    · simp [entryCreate, createVtuber, hany]
    · simp [entryCreate, createVtuber, hany, List.any_append]

/-- C9's concrete catalog: entity "a" with a resolvable field "k" and a
dangling reference "dangling". -/
def c9Store : CatalogStore :=
  ⟨[⟨"a", [("k", 1), ("dangling", 99)]⟩], [⟨1, "v"⟩]⟩

theorem admin_http_status_mapping_witness :
    statusOfGet (fieldGet c9Store "b" "k") = 404 ∧
    statusOfGet (fieldGet c9Store "a" "nope") = 404 ∧
    statusOfGet (fieldGet c9Store "a" "dangling") = 500 ∧
    statusOfPut (fieldPut (fun _ => Option.none) c9Store "a" "k" "xyz" 5) = 400 ∧
    (entryCreate c9Store "b").1 = 204 ∧
    (entryCreate (entryCreate c9Store "b").2 "b").1 = 409 := by
  have h1 := admin_http_status_mapping c9Store "b" "k" "xyz" (fun _ => Option.none) 5
  have h2 := admin_http_status_mapping c9Store "a" "nope" "xyz" (fun _ => Option.none) 5
  have h3 := admin_http_status_mapping c9Store "a" "dangling" "xyz" (fun _ => Option.none) 5
  refine ⟨h1.1 (by decide),
    h2.2.1 ⟨"a", [("k", 1), ("dangling", 99)]⟩ (by decide) (by decide),
    h3.2.2.1 ⟨"a", [("k", 1), ("dangling", 99)]⟩ 99 (by decide) (by decide) (by decide),
    h1.2.2.2.1 rfl,
    (h1.2.2.2.2 (by decide)).1,
    (h1.2.2.2.2 (by decide)).2⟩

end Stargazer
